import Mathlib

/-!
Verification of the smart-examiner AI violation pipeline.

Shallow embedding of the behavior-classification and violation-detection
core of the repository (files `src/client/ai_engine/classifier.py`,
`src/client/ai_engine/geometry.py`, `src/shared/constants.py`), together
with theorems settling the spec claims about it.

Conventions of the embedding:
* Python floats are modelled as rationals (`ℚ`); all arithmetic in the
  embedded code is exact, so this is faithful for the discrete control
  flow verified here.
* Behavior labels (`BehaviorLabel` IntEnum) are natural numbers:
  NORMAL = 0, LOOKING_LEFT = 1, LOOKING_RIGHT = 2, HEAD_DOWN = 3,
  TALKING = 4.
* The trained random-forest model is an external collaborator; it is a
  parameter (`model : List ℚ → Nat`, `proba : List ℚ → List ℚ`), as are
  the OpenCV PnP pose solve and the floating-point square root used by
  the mouth-aspect computation.
* Python truthiness tests on floats (`if self._cooldown_until and ...`,
  `if self._violation_start_time and ...`) are embedded literally: the
  value `0.0` is falsy, so the embedded tests check the field is both
  present and nonzero.
-/

namespace SmartExaminer

/-! ## Behavior labels (`src/shared/constants.py`, class BehaviorLabel) -/

abbrev NORMAL : Nat := 0
abbrev LOOKING_LEFT : Nat := 1
abbrev LOOKING_RIGHT : Nat := 2
abbrev HEAD_DOWN : Nat := 3
abbrev TALKING : Nat := 4

/-! ## Config (`src/shared/constants.py`, class Config)

`Config` is a plain Python class holding class attributes.  We model its
attribute table explicitly so that attribute lookup (and its failure,
Python `AttributeError`) is a total function.  String-valued attributes
(`SERVER_HOST`, `MODEL_PATH`) are listed in the name table; numeric
attributes also carry their value. -/

def Config.attributeNames : List String :=
  ["SERVER_HOST", "SERVER_PORT", "HEARTBEAT_INTERVAL", "RECONNECT_DELAY",
   "CAMERA_INDEX", "FRAME_WIDTH", "FRAME_HEIGHT", "FPS_TARGET",
   "HEAD_YAW_THRESHOLD", "HEAD_PITCH_THRESHOLD", "EYE_RATIO_THRESHOLD",
   "MAR_THRESHOLD", "VIOLATION_FRAME_COUNT", "MODEL_PATH"]

def Config.numericAttr (a : String) : Option ℚ :=
  if a = "SERVER_PORT" then some 8000
  else if a = "HEARTBEAT_INTERVAL" then some 5
  else if a = "RECONNECT_DELAY" then some 3
  else if a = "CAMERA_INDEX" then some 0
  else if a = "FRAME_WIDTH" then some 640
  else if a = "FRAME_HEIGHT" then some 480
  else if a = "FPS_TARGET" then some 30
  else if a = "HEAD_YAW_THRESHOLD" then some 40
  else if a = "HEAD_PITCH_THRESHOLD" then some 25
  else if a = "EYE_RATIO_THRESHOLD" then some (25/100)
  else if a = "MAR_THRESHOLD" then some (65/100)
  else if a = "VIOLATION_FRAME_COUNT" then some 5
  else none

/-- Evaluation of the default-argument expression
`violation_duration: float = Config.VIOLATION_DURATION_SECONDS` in
`ViolationDetector.__init__` (`classifier.py` line 166).  In Python this
expression is evaluated once, when the `def` statement inside the class
body executes at module import; an absent attribute raises
`AttributeError`. -/
def violationDetectorDefaultDuration : Except String ℚ :=
  match Config.numericAttr "VIOLATION_DURATION_SECONDS" with
  | some v => Except.ok v
  | none => Except.error "AttributeError: type object Config has no attribute VIOLATION_DURATION_SECONDS"

/-! ## BehaviorClassifier (`src/client/ai_engine/classifier.py` lines 18-152)

The trained random-forest model is an external collaborator loaded from
disk; it enters the embedding as a pair of parameters:
`model : List ℚ → Nat` (the `model.predict` call on the 5-feature row)
and `proba : List ℚ → List ℚ` (the `model.predict_proba` call).  The
`reshape(1, -1)` normalization does not change the flat feature values,
so features are the flat 5-vector and `features[0][0]` is the head of
the list. -/

/-- `VIOLATION_MESSAGES.get(label, "Unknown")` (`constants.py` 130-136). -/
def violationMessage (label : Nat) : String :=
  if label = NORMAL then "Normal"
  else if label = LOOKING_LEFT then "Looking Left"
  else if label = LOOKING_RIGHT then "Looking Right"
  else if label = HEAD_DOWN then "Head Down"
  else if label = TALKING then "Talking"
  else "Unknown"

/-- `BehaviorClassifier.predict` (lines 57-101): the pitch rule, then
the iris-gaze rules, then the model fallback. -/
def predict (model : List ℚ → Nat) (features : List ℚ)
    (iris_gaze : Option (ℚ × ℚ)) : Nat :=
  let pitch := features.headD 0
  if 20 < pitch then HEAD_DOWN
  else
    match iris_gaze with
    | some g =>
      if g.1 < -(25/100) then LOOKING_LEFT
      else if (25/100) < g.1 then LOOKING_RIGHT
      else if g.2 < -(30/100) then HEAD_DOWN
      else model features
    | none => model features

/-- `BehaviorClassifier.predict_with_confidence` (lines 126-152). -/
def predict_with_confidence (model : List ℚ → Nat) (proba : List ℚ → List ℚ)
    (features : List ℚ) (iris_gaze : Option (ℚ × ℚ)) : Nat × ℚ × String :=
  let label := predict model features iris_gaze
  let probabilities := proba features
  let confidence :=
    if h : label < probabilities.length then probabilities.get ⟨label, h⟩
    else 9/10
  (label, confidence, violationMessage label)

/-! ## GeometryCalculator (`src/client/ai_engine/geometry.py`)

Landmarks are triples `(x, y, z) : ℚ × ℚ × ℚ`.  The PnP pose solve
(`cv2.solvePnP` + Rodrigues + Euler decomposition) and the
floating-point square root are external to the rational embedding and
enter as parameters where needed. -/

/-- Python `int(...)`: truncation toward zero. -/
def pyInt (q : ℚ) : ℤ := if q < 0 then Int.ceil q else Int.floor q

/-- `FaceLandmarks.LEFT_EYE` (`constants.py` line 93). -/
def LEFT_EYE : List Nat := [33, 160, 158, 133, 153, 144]

/-- `FaceLandmarks.RIGHT_EYE` (`constants.py` line 96). -/
def RIGHT_EYE : List Nat := [362, 385, 387, 263, 373, 380]

/-- `GeometryCalculator.calculate_eye_gaze_ratio` (lines 219-271).
`cv2.boundingRect` over integer points returns `x = min x`,
`w = max x - min x + 1`; the code then computes
`(x + w/2 - x) / w` and clips to `[0, 1]` (the vertical extent is
computed but unused).  `np.clip(v, lo, hi) = min(hi, max(v, lo))`. -/
def calculate_eye_gaze_ratio (fw fh : ℚ) (lm : List (ℚ × ℚ × ℚ))
    (eye : String) : ℚ :=
  let eye_landmarks := if eye = "left" then LEFT_EYE else RIGHT_EYE
  let eye_points := eye_landmarks.filterMap (fun idx =>
    match lm[idx]? with
    | some pt => some ((pyInt (pt.1 * fw), pyInt (pt.2.1 * fh)) : ℤ × ℤ)
    | none => none)
  if eye_points.length < 6 then 1/2
  else
    match eye_points.map Prod.fst with
    | [] => 1/2
    | x0 :: xs =>
      let xmin := xs.foldl min x0
      let xmax := xs.foldl max x0
      let x : ℚ := (xmin : ℤ)
      let w : ℚ := ((xmax - xmin + 1 : ℤ) : ℚ)
      let eye_center_x := x + w / 2
      let gaze_r := if 0 < w then (eye_center_x - x) / w else 1/2
      min 1 (max gaze_r 0)

/-- `GeometryCalculator.calculate_iris_gaze` (lines 140-216).  All
landmark indices used are below 478, so after the length guard no
lookup can fail and the `except` branch is dead; `getD` with an
arbitrary default is therefore faithful. -/
def calculate_iris_gaze (lm : List (ℚ × ℚ × ℚ)) : ℚ × ℚ :=
  if lm.length < 478 then (0, 0)
  else
    let pt := fun i => lm.getD i (0, 0, 0)
    let left_iris := pt 468
    let left_eye_left := pt 33
    let left_eye_right := pt 133
    let left_eye_top := pt 159
    let left_eye_bottom := pt 145
    let right_iris := pt 473
    let right_eye_left := pt 362
    let right_eye_right := pt 263
    let right_eye_top := pt 386
    let right_eye_bottom := pt 374
    let left_eye_width := left_eye_right.1 - left_eye_left.1
    let left_h_gaze := if 0 < left_eye_width then
        ((left_iris.1 - left_eye_left.1) / left_eye_width - 1/2) * 2 else 0
    let right_eye_width := right_eye_right.1 - right_eye_left.1
    let right_h_gaze := if 0 < right_eye_width then
        ((right_iris.1 - right_eye_left.1) / right_eye_width - 1/2) * 2 else 0
    let horizontal_gaze := (left_h_gaze + right_h_gaze) / 2
    let left_eye_height := left_eye_bottom.2.1 - left_eye_top.2.1
    let left_v_gaze := if 0 < left_eye_height then
        (1/2 - (left_iris.2.1 - left_eye_top.2.1) / left_eye_height) * 2 else 0
    let right_eye_height := right_eye_bottom.2.1 - right_eye_top.2.1
    let right_v_gaze := if 0 < right_eye_height then
        (1/2 - (right_iris.2.1 - right_eye_top.2.1) / right_eye_height) * 2 else 0
    let vertical_gaze := (left_v_gaze + right_v_gaze) / 2
    (min 1 (max horizontal_gaze (-1)), min 1 (max vertical_gaze (-1)))

/-- `GeometryCalculator.calculate_mouth_aspect_ratio` (lines 273-313),
with the floating-point `np.sqrt` abstracted as `sqrtQ`.  The guard is
`max(13, 14, 78, 308) >= len(landmarks)`. -/
def calculate_mouth_aspect_ratio (sqrtQ : ℚ → ℚ)
    (lm : List (ℚ × ℚ × ℚ)) : ℚ :=
  if lm.length ≤ 308 then 0
  else
    let top := lm.getD 13 (0, 0, 0)
    let bottom := lm.getD 14 (0, 0, 0)
    let left := lm.getD 78 (0, 0, 0)
    let right := lm.getD 308 (0, 0, 0)
    let vertical_dist :=
      sqrtQ ((top.1 - bottom.1) ^ 2 + (top.2.1 - bottom.2.1) ^ 2 +
        (top.2.2 - bottom.2.2) ^ 2)
    let horizontal_dist :=
      sqrtQ ((left.1 - right.1) ^ 2 + (left.2.1 - right.2.1) ^ 2 +
        (left.2.2 - right.2.2) ^ 2)
    if 0 < horizontal_dist then vertical_dist / horizontal_dist else 0

/-- `GeometryCalculator.extract_all_features` (lines 332-366), with the
external PnP head-pose solve abstracted as `pose` (returning
`(pitch, yaw, roll)`).  The `np.float32` cast is dropped: every claim
about this function concerns values that are exactly representable. -/
def extract_all_features (pose : List (ℚ × ℚ × ℚ) → ℚ × ℚ × ℚ)
    (sqrtQ : ℚ → ℚ) (fw fh : ℚ) (lm : List (ℚ × ℚ × ℚ)) :
    List ℚ × (ℚ × ℚ) :=
  let p := pose lm
  let left_eye_r := calculate_eye_gaze_ratio fw fh lm "left"
  let right_eye_r := calculate_eye_gaze_ratio fw fh lm "right"
  let avg_eye_r := (left_eye_r + right_eye_r) / 2
  let mar := calculate_mouth_aspect_ratio sqrtQ lm
  let ig := calculate_iris_gaze lm
  ([p.1, p.2.1, p.2.2, avg_eye_r, mar], ig)

/-! ## ViolationDetector (`src/client/ai_engine/classifier.py` lines 155-287)

The mutable fields of the detector form `DetectorState`; `detectStep` is one
call of `detect` given the per-frame classifier output `(label,
confidence)` and the wall-clock reading `now = time.time()`.  The
classifier call at the top of `detect` is the external collaborator, so
`detectStep` takes its result as input. -/

structure DetectorParams where
  violation_threshold : Nat
  violation_duration : ℚ
deriving DecidableEq

def COOLDOWN_SECONDS : ℚ := 2

structure DetectorState where
  frame_buffer : List Nat
  current_violation_label : Option Nat
  violation_start_time : Option ℚ
  violation_reported : Bool
  cooldown_until : Option ℚ
deriving DecidableEq

/-- The field values set by `ViolationDetector.__init__` / `reset()`. -/
def initialState : DetectorState :=
  { frame_buffer := []
    current_violation_label := none
    violation_start_time := none
    violation_reported := false
    cooldown_until := none }

/-- `reset()` (`classifier.py` lines 263-269): clears every field. -/
def detectorReset (_ : DetectorState) : DetectorState := initialState

/-- Result triple of `detect`: `(is_violation, label, confidence)`. -/
abbrev DetectOutput := Bool × Option Nat × Option ℚ

def noEvent : DetectOutput := (false, none, none)

/-- Lines 211-213: append the label, and `pop(0)` once if the buffer now
exceeds `max_buffer_size` (= `violation_threshold`). -/
def pushFrame (maxSize : Nat) (buf : List Nat) (label : Nat) : List Nat :=
  let b := buf ++ [label]
  if maxSize < b.length then b.tail else b

/-- Line 224: `max(set(violation_labels), key=violation_labels.count)` -
the first (in first-occurrence order) element whose count is maximal; a
later element replaces the current best only with a strictly larger
count. -/
def mostCommonLabel (l : List Nat) : Nat :=
  l.dedup.foldl (fun best c => if l.count best < l.count c then c else best) (l.headD 0)

/-- Lines 219-233: the `current_behavior` computation.  `none` plays the
role of Python `None`. -/
def dominantBehavior (threshold : Nat) (buf : List Nat) : Option Nat :=
  let violation_labels := buf.filter (fun l => l ≠ NORMAL)
  if threshold ≤ violation_labels.length then
    let dominant_label := mostCommonLabel violation_labels
    if threshold ≤ violation_labels.count dominant_label then some dominant_label
    else none
  else none

/-- Line 236: `if self._cooldown_until and now < self._cooldown_until`.
A stored `0.0` is falsy in Python, hence the extra nonzero test. -/
def cooldownActive (s : DetectorState) (now : ℚ) : Bool :=
  match s.cooldown_until with
  | some c => decide (c ≠ 0) && decide (now < c)
  | none => false

/-- One call of `ViolationDetector.detect` (lines 191-261), given the
classifier result `(label, confidence)` for this frame and `now`.
Returns the updated state and the returned triple. -/
def detectStep (p : DetectorParams) (s : DetectorState) (label : Nat)
    (confidence : ℚ) (now : ℚ) : DetectorState × DetectOutput :=
  let buf := pushFrame p.violation_threshold s.frame_buffer label
  if buf.length < p.violation_threshold then
    ({ s with frame_buffer := buf }, noEvent)
  else
    let current_behavior := dominantBehavior p.violation_threshold buf
    if cooldownActive s now then
      ({ s with frame_buffer := buf }, noEvent)
    else
      match current_behavior with
      | some cb =>
        if s.current_violation_label = some cb then
          match s.violation_start_time with
          | some st =>
            if st ≠ 0 ∧ s.violation_reported = false then
              if p.violation_duration ≤ now - st then
                ({ s with
                    frame_buffer := buf
                    violation_reported := true
                    cooldown_until := some (now + COOLDOWN_SECONDS) },
                 (true, some cb, some confidence))
              else ({ s with frame_buffer := buf }, noEvent)
            else ({ s with frame_buffer := buf }, noEvent)
          | none => ({ s with frame_buffer := buf }, noEvent)
        else
          ({ s with
              frame_buffer := buf
              current_violation_label := some cb
              violation_start_time := some now
              violation_reported := false }, noEvent)
      | none =>
        ({ s with
            frame_buffer := buf
            current_violation_label := none
            violation_start_time := none
            violation_reported := false }, noEvent)

/-- One frame of input to `detect`: the label and confidence from the classifier
for the frame, and the `time.time()` reading of the call. -/
structure FrameInput where
  label : Nat
  confidence : ℚ
  now : ℚ
deriving DecidableEq

/-- Feed a sequence of frames through `detect`, collecting outputs. -/
def runDetect (p : DetectorParams) (s : DetectorState) :
    List FrameInput → DetectorState × List DetectOutput
  | [] => (s, [])
  | f :: fs =>
    let r := detectStep p s f.label f.confidence f.now
    let rest := runDetect p r.1 fs
    (rest.1, r.2 :: rest.2)

/-- Number of outputs reporting a violation (`is_violation = True`). -/
def eventCount (outs : List DetectOutput) : Nat :=
  (outs.filter (fun o => o.1)).length

/-! ## Helper lemmas about the detector -/

lemma eventCount_nil : eventCount [] = 0 := rfl

lemma eventCount_cons_noEvent (outs : List DetectOutput) :
    eventCount (noEvent :: outs) = eventCount outs := by
  simp [eventCount, noEvent]

lemma eventCount_cons_event (l : Option Nat) (c : Option ℚ)
    (outs : List DetectOutput) :
    eventCount ((true, l, c) :: outs) = eventCount outs + 1 := by
  simp [eventCount]

lemma eventCount_append (a b : List DetectOutput) :
    eventCount (a ++ b) = eventCount a + eventCount b := by
  simp [eventCount, List.filter_append]

lemma eventCount_map_noEvent {α : Type} (fs : List α) :
    eventCount (fs.map (fun _ => noEvent)) = 0 := by
  induction fs with
  | nil => rfl
  | cons f fs ih => rw [List.map_cons, eventCount_cons_noEvent, ih]

lemma pushFrame_length_le (N : Nat) (buf : List Nat) (label : Nat)
    (h : buf.length ≤ N) : (pushFrame N buf label).length ≤ N := by
  unfold pushFrame
  simp only []
  split <;> simp_all

lemma pushFrame_replicate (N ℓ : Nat) :
    pushFrame N (List.replicate N ℓ) ℓ = List.replicate N ℓ := by
  unfold pushFrame
  rw [← List.replicate_succ' N ℓ]
  simp only [List.length_replicate]
  rw [if_pos (by omega), List.tail_replicate]
  simp

lemma dedup_replicate (n ℓ : Nat) (hn : n ≠ 0) :
    (List.replicate n ℓ).dedup = [ℓ] := by
  induction n with
  | zero => exact absurd rfl hn
  | succ k ih =>
    rcases Nat.eq_zero_or_pos k with h0 | hk
    · subst h0; rfl
    · rw [List.replicate_succ,
        List.dedup_cons_of_mem (by rw [List.mem_replicate]; exact ⟨by omega, rfl⟩)]
      exact ih (by omega)

lemma mostCommonLabel_replicate (n ℓ : Nat) (hn : n ≠ 0) :
    mostCommonLabel (List.replicate n ℓ) = ℓ := by
  unfold mostCommonLabel
  rw [dedup_replicate n ℓ hn]
  rcases Nat.exists_eq_succ_of_ne_zero hn with ⟨k, rfl⟩
  simp [List.replicate_succ]

lemma dominantBehavior_replicate (N ℓ : Nat) (hN : 1 ≤ N) (hℓ : ℓ ≠ NORMAL) :
    dominantBehavior N (List.replicate N ℓ) = some ℓ := by
  simp only [dominantBehavior]
  rw [List.filter_replicate]
  rw [if_pos (show decide (ℓ ≠ NORMAL) = true by simp [hℓ])]
  rw [mostCommonLabel_replicate N ℓ (by omega)]
  rw [List.count_replicate_self, List.length_replicate]
  rw [if_pos (le_refl N), if_pos (le_refl N)]

lemma detectStep_reported (p : DetectorParams) (ℓ : Nat)
    (hN : 1 ≤ p.violation_threshold) (hℓ : ℓ ≠ NORMAL)
    (st cu : Option ℚ) (c now : ℚ) :
    detectStep p
        ⟨List.replicate p.violation_threshold ℓ, some ℓ, st, true, cu⟩ ℓ c now =
      (⟨List.replicate p.violation_threshold ℓ, some ℓ, st, true, cu⟩, noEvent) := by
  simp only [detectStep, pushFrame_replicate,
    dominantBehavior_replicate p.violation_threshold ℓ hN hℓ]
  rw [if_neg (by simp)]
  split
  · rfl
  · cases st <;> simp

lemma detectStep_startTracking (p : DetectorParams) (ℓ : Nat)
    (hN : 1 ≤ p.violation_threshold) (hℓ : ℓ ≠ NORMAL) (c now : ℚ) :
    detectStep p
        ⟨List.replicate (p.violation_threshold - 1) ℓ, none, none, false, none⟩
        ℓ c now =
      (⟨List.replicate p.violation_threshold ℓ, some ℓ, some now, false, none⟩,
       noEvent) := by
  have hpush : pushFrame p.violation_threshold
      (List.replicate (p.violation_threshold - 1) ℓ) ℓ =
      List.replicate p.violation_threshold ℓ := by
    unfold pushFrame
    rw [← List.replicate_succ']
    have h1 : p.violation_threshold - 1 + 1 = p.violation_threshold := by omega
    rw [h1]
    simp
  simp only [detectStep, hpush]
  rw [if_neg (by simp)]
  simp [cooldownActive, dominantBehavior_replicate p.violation_threshold ℓ hN hℓ]

lemma detectStep_tracking_fire (p : DetectorParams) (ℓ : Nat) (st c now : ℚ)
    (hN : 1 ≤ p.violation_threshold) (hℓ : ℓ ≠ NORMAL) (hst : st ≠ 0)
    (hfire : p.violation_duration ≤ now - st) :
    detectStep p
        ⟨List.replicate p.violation_threshold ℓ, some ℓ, some st, false, none⟩
        ℓ c now =
      (⟨List.replicate p.violation_threshold ℓ, some ℓ, some st, true,
        some (now + COOLDOWN_SECONDS)⟩, (true, some ℓ, some c)) := by
  simp [detectStep, pushFrame_replicate, cooldownActive, lt_self_iff_false,
    dominantBehavior_replicate p.violation_threshold ℓ hN hℓ, hst, hfire]

lemma detectStep_tracking_wait (p : DetectorParams) (ℓ : Nat) (st c now : ℚ)
    (hN : 1 ≤ p.violation_threshold) (hℓ : ℓ ≠ NORMAL) (hst : st ≠ 0)
    (hwait : ¬ p.violation_duration ≤ now - st) :
    detectStep p
        ⟨List.replicate p.violation_threshold ℓ, some ℓ, some st, false, none⟩
        ℓ c now =
      (⟨List.replicate p.violation_threshold ℓ, some ℓ, some st, false, none⟩,
       noEvent) := by
  simp [detectStep, pushFrame_replicate, cooldownActive, lt_self_iff_false,
    dominantBehavior_replicate p.violation_threshold ℓ hN hℓ, hst, hwait]

lemma runDetect_append (p : DetectorParams) (s : DetectorState)
    (xs ys : List FrameInput) :
    runDetect p s (xs ++ ys) =
      ((runDetect p (runDetect p s xs).1 ys).1,
       (runDetect p s xs).2 ++ (runDetect p (runDetect p s xs).1 ys).2) := by
  induction xs generalizing s with
  | nil => simp [runDetect]
  | cons x xs ih =>
    simp only [List.cons_append, runDetect, List.append_eq]
    rw [ih]

lemma runDetect_short (p : DetectorParams) (fs : List FrameInput)
    (s : DetectorState)
    (h : s.frame_buffer.length + fs.length < p.violation_threshold) :
    runDetect p s fs =
      ({ s with frame_buffer := s.frame_buffer ++ fs.map (fun f => f.label) },
       fs.map (fun _ => noEvent)) := by
  induction fs generalizing s with
  | nil => simp [runDetect]
  | cons f fs ih =>
    have hlen : (s.frame_buffer ++ [f.label]).length = s.frame_buffer.length + 1 := by
      simp
    have hc1 : ¬ p.violation_threshold < (s.frame_buffer ++ [f.label]).length := by
      simp at h ⊢; omega
    have hc2 : (s.frame_buffer ++ [f.label]).length < p.violation_threshold := by
      simp at h ⊢; omega
    have hstep : detectStep p s f.label f.confidence f.now =
        ({ s with frame_buffer := s.frame_buffer ++ [f.label] }, noEvent) := by
      simp only [detectStep, pushFrame, if_neg hc1, if_pos hc2]
    simp only [runDetect, hstep]
    rw [ih ({ s with frame_buffer := s.frame_buffer ++ [f.label] })
      (by simp at h ⊢; omega)]
    simp

lemma runDetect_reported (p : DetectorParams) (ℓ : Nat)
    (hN : 1 ≤ p.violation_threshold) (hℓ : ℓ ≠ NORMAL) (st cu : Option ℚ)
    (fs : List FrameInput) (hlab : ∀ f ∈ fs, f.label = ℓ) :
    runDetect p ⟨List.replicate p.violation_threshold ℓ, some ℓ, st, true, cu⟩ fs =
      (⟨List.replicate p.violation_threshold ℓ, some ℓ, st, true, cu⟩,
       fs.map (fun _ => noEvent)) := by
  induction fs with
  | nil => rfl
  | cons f fs ih =>
    have hf : f.label = ℓ := hlab f (List.mem_cons_self f fs)
    simp only [runDetect, hf, detectStep_reported p ℓ hN hℓ st cu]
    rw [ih (fun g hg => hlab g (List.mem_cons_of_mem f hg))]
    simp

lemma runDetect_tracking (p : DetectorParams) (ℓ : Nat) (st : ℚ)
    (hN : 1 ≤ p.violation_threshold) (hℓ : ℓ ≠ NORMAL) (hst : st ≠ 0)
    (fs : List FrameInput) (hlab : ∀ f ∈ fs, f.label = ℓ) :
    eventCount (runDetect p
        ⟨List.replicate p.violation_threshold ℓ, some ℓ, some st, false, none⟩
        fs).2 =
      if ∃ f ∈ fs, st + p.violation_duration ≤ f.now then 1 else 0 := by
  induction fs with
  | nil => simp [runDetect, eventCount_nil]
  | cons f fs ih =>
    have hf : f.label = ℓ := hlab f (List.mem_cons_self f fs)
    by_cases hfire : p.violation_duration ≤ f.now - st
    · simp only [runDetect, hf,
        detectStep_tracking_fire p ℓ st f.confidence f.now hN hℓ hst hfire]
      rw [runDetect_reported p ℓ hN hℓ (some st) (some (f.now + COOLDOWN_SECONDS))
        fs (fun g hg => hlab g (List.mem_cons_of_mem f hg))]
      rw [if_pos ⟨f, List.mem_cons_self f fs, by linarith⟩]
      simp only [eventCount_cons_event, eventCount_map_noEvent]
    · simp only [runDetect, hf,
        detectStep_tracking_wait p ℓ st f.confidence f.now hN hℓ hst hfire]
      rw [eventCount_cons_noEvent,
        ih (fun g hg => hlab g (List.mem_cons_of_mem f hg))]
      have hfa : ¬ st + p.violation_duration ≤ f.now := by
        intro hc; exact hfire (by linarith)
      by_cases hrest : ∃ g ∈ fs, st + p.violation_duration ≤ g.now
      · rw [if_pos hrest, if_pos ⟨hrest.choose, List.mem_cons_of_mem f hrest.choose_spec.1,
          hrest.choose_spec.2⟩]
      · rw [if_neg hrest, if_neg ?_]
        rintro ⟨g, hg, hgd⟩
        rcases List.mem_cons.mp hg with rfl | hg2
        · exact hfa hgd
        · exact hrest ⟨g, hg2, hgd⟩

/-- From a fresh detector, a frame stream carrying the single non-NORMAL
label `ℓ` throughout (with positive `time.time()` readings) produces
exactly one event, provided some frame at index `i ≥ N` arrives at least
`violation_duration` after the frame at index `N - 1` (the frame on
which tracking starts). -/
lemma runDetect_single_label_eventCount (p : DetectorParams)
    (hN : 1 ≤ p.violation_threshold) (ℓ : Nat) (hℓ : ℓ ≠ NORMAL) (c : ℚ)
    (ts : List ℚ) (hpos : ∀ t ∈ ts, 0 < t) (i : Nat) (tstart tqual : ℚ)
    (hstart : ts[p.violation_threshold - 1]? = some tstart)
    (hqual : ts[i]? = some tqual) (hiN : p.violation_threshold ≤ i)
    (hdur : tstart + p.violation_duration ≤ tqual) :
    eventCount (runDetect p initialState
      (ts.map (fun t => (⟨ℓ, c, t⟩ : FrameInput)))).2 = 1 := by
  obtain ⟨hlt1, hget1⟩ := List.getElem?_eq_some.mp hstart
  have hN1 : p.violation_threshold - 1 + 1 = p.violation_threshold := by omega
  have hsplit : ts = ts.take (p.violation_threshold - 1) ++
      (tstart :: ts.drop p.violation_threshold) := by
    conv_lhs => rw [← List.take_append_drop (p.violation_threshold - 1) ts]
    congr 1
    rw [List.drop_eq_getElem_cons hlt1, hget1, hN1]
  have hlen1 : initialState.frame_buffer.length +
      ((ts.take (p.violation_threshold - 1)).map
        (fun t => (⟨ℓ, c, t⟩ : FrameInput))).length < p.violation_threshold := by
    simp [initialState, List.length_take]
    omega
  have h1 := runDetect_short p
    ((ts.take (p.violation_threshold - 1)).map (fun t => (⟨ℓ, c, t⟩ : FrameInput)))
    initialState hlen1
  have hmapl : (((ts.take (p.violation_threshold - 1)).map
        (fun t => (⟨ℓ, c, t⟩ : FrameInput))).map (fun g => g.label)) =
      List.replicate (p.violation_threshold - 1) ℓ := by
    rw [List.map_map]
    have hcomp : ((fun g : FrameInput => g.label) ∘
        (fun t : ℚ => (⟨ℓ, c, t⟩ : FrameInput))) = fun _ => ℓ := rfl
    rw [hcomp, List.map_const', List.length_take]
    congr 1
    omega
  have hstate1 : ({ initialState with
      frame_buffer := initialState.frame_buffer ++
        (((ts.take (p.violation_threshold - 1)).map
          (fun t => (⟨ℓ, c, t⟩ : FrameInput))).map (fun g => g.label)) } :
        DetectorState) =
      ⟨List.replicate (p.violation_threshold - 1) ℓ, none, none, false, none⟩ := by
    rw [hmapl]
    rfl
  have hst0 : tstart ≠ 0 := by
    have hmem : tstart ∈ ts := hget1 ▸ List.getElem_mem hlt1
    exact ne_of_gt (hpos tstart hmem)
  have hlabB : ∀ g ∈ (ts.drop p.violation_threshold).map
      (fun t => (⟨ℓ, c, t⟩ : FrameInput)), g.label = ℓ := by
    intro g hg
    obtain ⟨t, -, rfl⟩ := List.mem_map.mp hg
    rfl
  have hexB : ∃ g ∈ (ts.drop p.violation_threshold).map
      (fun t => (⟨ℓ, c, t⟩ : FrameInput)),
      tstart + p.violation_duration ≤ g.now := by
    have hidx : (ts.drop p.violation_threshold)[i - p.violation_threshold]? =
        some tqual := by
      rw [List.getElem?_drop]
      have hsum : p.violation_threshold + (i - p.violation_threshold) = i := by
        omega
      rw [hsum]
      exact hqual
    obtain ⟨hlt2, hget2⟩ := List.getElem?_eq_some.mp hidx
    exact ⟨⟨ℓ, c, tqual⟩,
      List.mem_map.mpr ⟨tqual, hget2 ▸ List.getElem_mem hlt2, rfl⟩, hdur⟩
  conv_lhs => rw [hsplit]
  rw [List.map_append, List.map_cons, runDetect_append, h1]
  simp only
  rw [hstate1, eventCount_append, eventCount_map_noEvent]
  simp only [runDetect]
  rw [detectStep_startTracking p ℓ hN hℓ c tstart]
  simp only
  rw [eventCount_cons_noEvent,
    runDetect_tracking p ℓ tstart hN hℓ hst0 _ hlabB, if_pos hexB]

/-! ## Claim theorems -/

/-- C1: feeding a fresh detector a frame sequence whose frames all carry
one identical non-NORMAL label (so the first N of them saturate the ring
buffer), with positive wall-clock times, such that the conditions
persist until some frame arrives `violation_duration` after tracking
began, yields exactly one violation event over the whole sequence —
later calls under the same continuing conditions return no further event
(the `reported` guard). -/
theorem detect_exactly_one_event_per_occurrence (p : DetectorParams)
    (hN : 1 ≤ p.violation_threshold) (ℓ : Nat) (hℓ : ℓ ≠ NORMAL) (c : ℚ)
    (ts : List ℚ) (hpos : ∀ t ∈ ts, 0 < t) (i : Nat) (tstart tqual : ℚ)
    (hstart : ts[p.violation_threshold - 1]? = some tstart)
    (hqual : ts[i]? = some tqual) (hiN : p.violation_threshold ≤ i)
    (hdur : tstart + p.violation_duration ≤ tqual) :
    eventCount (runDetect p initialState
      (ts.map (fun t => (⟨ℓ, c, t⟩ : FrameInput)))).2 = 1 :=
  runDetect_single_label_eventCount p hN ℓ hℓ c ts hpos i tstart tqual
    hstart hqual hiN hdur

/-- Witness for C1: threshold 5, duration 2 s, HEAD_DOWN frames at
t = 1 .. 7: tracking starts at t = 5 and the frame at t = 7 completes
the duration, so the run returns exactly one event. -/
theorem detect_exactly_one_event_per_occurrence_witness :
    eventCount (runDetect ⟨5, 2⟩ initialState
      (([1, 2, 3, 4, 5, 6, 7] : List ℚ).map
        (fun t => (⟨3, 1, t⟩ : FrameInput)))).2 = 1 :=
  detect_exactly_one_event_per_occurrence ⟨5, 2⟩ (by decide) 3 (by decide) 1
    [1, 2, 3, 4, 5, 6, 7]
    (by intro t ht; fin_cases ht <;> norm_num)
    6 5 7 rfl rfl (by decide) (by norm_num)

/-- C2 counterexample: threshold 5, duration 2 s, cooldown 2 s, one
HEAD_DOWN frame per second for t = 1 .. 14.  The single event fires at
t = 7 (tracking started at t = 5) and the cooldown ends at t = 9.  The
same qualifying behavior then persists, a full fresh duration elapses by
t = 11, and three further frames follow — yet the whole run still
contains exactly one event: no second `ViolationEvent` is ever emitted,
contradicting the claim. -/
theorem detect_no_second_event_after_cooldown_cex :
    eventCount (runDetect ⟨5, 2⟩ initialState
      (([1, 2, 3, 4, 5, 6, 7, 8, 9, 10, 11, 12, 13, 14] : List ℚ).map
        (fun t => (⟨3, 1, t⟩ : FrameInput)))).2 = 1 :=
  runDetect_single_label_eventCount ⟨5, 2⟩ (by decide) 3 (by decide) 1
    [1, 2, 3, 4, 5, 6, 7, 8, 9, 10, 11, 12, 13, 14]
    (by intro t ht; fin_cases ht <;> norm_num)
    6 5 7 rfl rfl (by decide) (by norm_num)

/-- C2 (amended): once an event has been reported, as long as the same
qualifying behavior remains continuously present (the ring buffer stays
saturated with the same non-NORMAL label), no further event is ever
emitted — even after the cooldown expires and however much time passes.
The `reported` flag persists until a non-qualifying buffer clears the
tracking state; only after such an interruption (and outside cooldown)
can a fresh `violation_duration` of renewed behavior yield a second
event. -/
theorem detect_no_second_event_while_behavior_persists (p : DetectorParams)
    (hN : 1 ≤ p.violation_threshold) (ℓ : Nat) (hℓ : ℓ ≠ NORMAL)
    (st cu : Option ℚ) (fs : List FrameInput)
    (hlab : ∀ f ∈ fs, f.label = ℓ) :
    eventCount (runDetect p
      ⟨List.replicate p.violation_threshold ℓ, some ℓ, st, true, cu⟩ fs).2 = 0 := by
  rw [runDetect_reported p ℓ hN hℓ st cu fs hlab]
  exact eventCount_map_noEvent fs

/-- Witness for the amended C2: the post-event state (buffer saturated
with HEAD_DOWN, reported, cooldown until t = 9) fed three more HEAD_DOWN
frames at t = 10, 11, 12 — after cooldown expiry and beyond a fresh
duration — produces zero events. -/
theorem detect_no_second_event_while_behavior_persists_witness :
    eventCount (runDetect ⟨5, 2⟩
      ⟨[3, 3, 3, 3, 3], some 3, some 5, true, some 9⟩
      [⟨3, 1, 10⟩, ⟨3, 1, 11⟩, ⟨3, 1, 12⟩]).2 = 0 := by
  have h := detect_no_second_event_while_behavior_persists ⟨5, 2⟩ (by decide)
    3 (by decide) (some 5) (some 9) [⟨3, 1, 10⟩, ⟨3, 1, 11⟩, ⟨3, 1, 12⟩]
    (by intro f hf; fin_cases hf <;> rfl)
  simpa using h

/-- C3: `ViolationDetector.detect` sets a dominant (tracked-candidate)
label exactly when the number of non-NORMAL labels in the full ring
buffer is at least N and the most frequent such label itself occurs at
least N times; since the buffer holds at most N entries, this holds
exactly when the buffer consists of N copies of a single non-NORMAL
label. -/
theorem dominantBehavior_eq_some_iff_replicate (N : Nat) (buf : List Nat)
    (d : Nat) (hN : 1 ≤ N) (hlen : buf.length ≤ N) :
    dominantBehavior N buf = some d ↔ d ≠ NORMAL ∧ buf = List.replicate N d := by
  constructor
  · intro hd
    simp only [dominantBehavior] at hd
    by_cases h1 : N ≤ (buf.filter (fun l => decide (l ≠ NORMAL))).length
    swap
    · rw [if_neg h1] at hd; exact absurd hd (by simp)
    rw [if_pos h1] at hd
    by_cases h2 : N ≤ (buf.filter (fun l => decide (l ≠ NORMAL))).count
        (mostCommonLabel (buf.filter (fun l => decide (l ≠ NORMAL))))
    swap
    · rw [if_neg h2] at hd; exact absurd hd (by simp)
    rw [if_pos h2] at hd
    have hmc : mostCommonLabel (buf.filter (fun l => decide (l ≠ NORMAL))) = d :=
      Option.some_injective _ hd
    rw [hmc] at h2
    have hvlen : (buf.filter (fun l => decide (l ≠ NORMAL))).length ≤ buf.length :=
      List.length_filter_le _ _
    have hveq : (buf.filter (fun l => decide (l ≠ NORMAL))).length = N :=
      le_antisymm (le_trans hvlen hlen) h1
    have hblen : buf.length = N := le_antisymm hlen (by omega)
    have hfilter_all : ∀ a ∈ buf, (decide (a ≠ NORMAL)) = true := by
      by_contra hex
      push_neg at hex
      obtain ⟨a, ha, hpa⟩ := hex
      have hlt : (buf.filter (fun l => decide (l ≠ NORMAL))).length < buf.length :=
        List.length_filter_lt_length_iff_exists.mpr ⟨a, ha, hpa⟩
      omega
    have hvb : buf.filter (fun l => decide (l ≠ NORMAL)) = buf :=
      List.filter_eq_self.mpr hfilter_all
    rw [hvb] at h2 hveq
    have hcount : buf.count d = buf.length :=
      le_antisymm (List.count_le_length _ _) (by omega)
    have hall : ∀ b ∈ buf, d = b := List.count_eq_length.mp hcount
    have hdmem : d ∈ buf := List.count_pos_iff.mp (by omega)
    refine ⟨by simpa using hfilter_all d hdmem, ?_⟩
    exact List.eq_replicate_iff.mpr ⟨hblen, fun b hb => (hall b hb).symm⟩
  · rintro ⟨hd0, rfl⟩
    exact dominantBehavior_replicate N d hN hd0

/-- Witness for C3: the fully saturated single-label buffer
`[3, 3, 3, 3, 3]` (five copies of HEAD_DOWN) is recognized as dominant. -/
theorem dominantBehavior_eq_some_iff_replicate_witness :
    dominantBehavior 5 [3, 3, 3, 3, 3] = some 3 :=
  (dominantBehavior_eq_some_iff_replicate 5 [3, 3, 3, 3, 3] 3 (by decide)
    (by decide)).mpr ⟨by decide, rfl⟩

/-- C4: while a cooldown is active (a nonzero `cooldown_until` lies in
the future), `detect` returns no event and leaves every tracking field
(`_current_violation_label`, `_violation_start_time`,
`_violation_reported`, and `_cooldown_until` itself) unchanged; only the
ring buffer is updated. -/
theorem detect_cooldown_freezes_tracking (p : DetectorParams)
    (s : DetectorState) (label : Nat) (c now cd : ℚ)
    (h1 : s.cooldown_until = some cd) (h2 : cd ≠ 0) (h3 : now < cd) :
    detectStep p s label c now =
      ({ s with frame_buffer := pushFrame p.violation_threshold s.frame_buffer label },
       noEvent) := by
  have hact : cooldownActive s now = true := by
    simp [cooldownActive, h1, h2, h3]
  simp only [detectStep, hact]
  split
  · rfl
  · simp

/-- Witness for C4: a detector tracking HEAD_DOWN since t = 1 with
cooldown until t = 10, called at t = 5, returns nothing and keeps all
tracking fields. -/
theorem detect_cooldown_freezes_tracking_witness :
    detectStep ⟨5, 2⟩ ⟨[3, 3, 3, 3, 3], some 3, some 1, true, some 10⟩ 3 1 5 =
      (⟨[3, 3, 3, 3, 3], some 3, some 1, true, some 10⟩, noEvent) := by
  have h := detect_cooldown_freezes_tracking ⟨5, 2⟩
    ⟨[3, 3, 3, 3, 3], some 3, some 1, true, some 10⟩ 3 1 5 10 rfl
    (by norm_num) (by norm_num)
  simpa [pushFrame] using h

/-- C5: when no cooldown is active and the full ring buffer contains at
least one NORMAL label, `detect` clears the tracking state entirely
(tracked label, start time and reported flag all reset) and returns no
event. -/
theorem detect_normal_in_buffer_resets (p : DetectorParams)
    (s : DetectorState) (label : Nat) (c now : ℚ)
    (hlen : s.frame_buffer.length ≤ p.violation_threshold)
    (hcool : cooldownActive s now = false)
    (hfull : p.violation_threshold ≤
      (pushFrame p.violation_threshold s.frame_buffer label).length)
    (hmem : NORMAL ∈ pushFrame p.violation_threshold s.frame_buffer label) :
    detectStep p s label c now =
      ({ s with
          frame_buffer := pushFrame p.violation_threshold s.frame_buffer label
          current_violation_label := none
          violation_start_time := none
          violation_reported := false }, noEvent) := by
  have hble : (pushFrame p.violation_threshold s.frame_buffer label).length ≤
      p.violation_threshold := pushFrame_length_le _ _ _ hlen
  have hdom : dominantBehavior p.violation_threshold
      (pushFrame p.violation_threshold s.frame_buffer label) = none := by
    have hlt : ((pushFrame p.violation_threshold s.frame_buffer label).filter
        (fun l => decide (l ≠ NORMAL))).length <
        (pushFrame p.violation_threshold s.frame_buffer label).length :=
      List.length_filter_lt_length_iff_exists.mpr ⟨NORMAL, hmem, by simp⟩
    simp only [dominantBehavior]
    rw [if_neg (by omega)]
  simp only [detectStep]
  rw [if_neg (by omega), if_neg (by rw [hcool]; exact Bool.false_ne_true), hdom]

/-- Witness for C5: a detector tracking HEAD_DOWN whose buffer receives
one NORMAL frame (buffer becomes `[3, 3, 3, 3, 0]`) clears its tracking
state and reports nothing. -/
theorem detect_normal_in_buffer_resets_witness :
    detectStep ⟨5, 2⟩ ⟨[3, 3, 3, 3, 3], some 3, some 1, false, none⟩ 0 1 5 =
      (⟨[3, 3, 3, 3, 0], none, none, false, none⟩, noEvent) := by
  have h := detect_normal_in_buffer_resets ⟨5, 2⟩
    ⟨[3, 3, 3, 3, 3], some 3, some 1, false, none⟩ 0 1 5
    (by decide) (by simp [cooldownActive])
    (by simp [pushFrame]) (by simp [pushFrame])
  simpa [pushFrame] using h

/-- C6: on a fresh (or freshly reset) detector, every input sequence of
fewer than N frames produces only `(False, None, None)` outputs: no
event can be returned before the ring buffer holds N entries. -/
theorem detect_no_event_before_buffer_full (p : DetectorParams)
    (s : DetectorState) (fs : List FrameInput)
    (h : fs.length < p.violation_threshold) :
    (runDetect p initialState fs).2 = fs.map (fun _ => noEvent) ∧
    (runDetect p (detectorReset s) fs).2 = fs.map (fun _ => noEvent) := by
  have h0 : initialState.frame_buffer.length + fs.length < p.violation_threshold := by
    simpa [initialState] using h
  have hrun := runDetect_short p fs initialState h0
  exact ⟨by rw [hrun], by rw [detectorReset, hrun]⟩

/-- Witness for C6: four HEAD_DOWN frames (threshold 5) from a fresh
detector produce four empty outputs. -/
theorem detect_no_event_before_buffer_full_witness :
    (runDetect ⟨5, 2⟩ initialState
        [⟨3, 1, 1⟩, ⟨3, 1, 2⟩, ⟨3, 1, 3⟩, ⟨3, 1, 4⟩]).2 =
      [noEvent, noEvent, noEvent, noEvent] := by
  have h := (detect_no_event_before_buffer_full ⟨5, 2⟩ initialState
    [⟨3, 1, 1⟩, ⟨3, 1, 2⟩, ⟨3, 1, 3⟩, ⟨3, 1, 4⟩] (by decide)).1
  simpa using h

/-- C7: whenever the pitch component (the first entry) of the 5-element
feature vector exceeds the hard-coded pitch-down threshold of 20
degrees, `BehaviorClassifier.predict` short-circuits to HEAD_DOWN,
regardless of the supplied iris-gaze vector and of the fallback
output. -/
theorem predict_pitch_rule_shortcircuits (model : List ℚ → Nat)
    (features : List ℚ) (iris_gaze : Option (ℚ × ℚ))
    (hlen : features.length = 5) (hpitch : 20 < features.headD 0) :
    predict model features iris_gaze = HEAD_DOWN := by
  simp only [predict]
  rw [if_pos hpitch]

/-- Witness for C7: pitch 25 combined with an iris gaze of (0.5, 0) —
which the gaze rule alone would classify as LOOKING_RIGHT — and a
fallback model that always answers LOOKING_RIGHT still resolves to
HEAD_DOWN. -/
theorem predict_pitch_rule_shortcircuits_witness :
    predict (fun _ => LOOKING_RIGHT) [25, 0, 0, 1/2, 1/10]
      (some (1/2, 0)) = HEAD_DOWN :=
  predict_pitch_rule_shortcircuits (fun _ => LOOKING_RIGHT)
    [25, 0, 0, 1/2, 1/10] (some (1/2, 0)) rfl (by norm_num)

/-- C8 counterexample: with a fallback model whose probability array has
a single entry, a pitch-rule short-circuit to HEAD_DOWN (index 3) makes
`predict_with_confidence` return the hard-coded fallback 0.9 — there is
no "model probability at the index of the final label" at all, so the
returned confidence cannot equal it. -/
theorem predict_confidence_fallback_cex :
    (predict_with_confidence (fun _ => NORMAL) (fun _ => [1])
        [25, 0, 0, 1/2, 1/10] none).1 = HEAD_DOWN ∧
    (predict_with_confidence (fun _ => NORMAL) (fun _ => [1])
        [25, 0, 0, 1/2, 1/10] none).2.1 = 9/10 ∧
    ¬ ∃ h : (predict_with_confidence (fun _ => NORMAL) (fun _ => [1])
        [25, 0, 0, 1/2, 1/10] none).1 < ([(1 : ℚ)]).length,
      (predict_with_confidence (fun _ => NORMAL) (fun _ => [1])
          [25, 0, 0, 1/2, 1/10] none).2.1 =
        ([(1 : ℚ)]).get ⟨(predict_with_confidence (fun _ => NORMAL)
          (fun _ => [1]) [25, 0, 0, 1/2, 1/10] none).1, h⟩ := by
  have hlabel : predict (fun _ => NORMAL) [25, 0, 0, 1/2, 1/10] none =
      HEAD_DOWN := by
    simp only [predict]
    rw [if_pos (by norm_num)]
  refine ⟨hlabel, ?_, ?_⟩
  · simp only [predict_with_confidence, hlabel]
    rw [dif_neg (by decide)]
  · rintro ⟨h, -⟩
    rw [show (predict_with_confidence (fun _ => NORMAL) (fun _ => [1])
        [25, 0, 0, 1/2, 1/10] none).1 = HEAD_DOWN from hlabel] at h
    exact absurd h (by decide)

/-- C8 (amended): the confidence returned by `predict_with_confidence`
equals the probability-array entry of the model at the index of the final
label when that index is within the array, and the hard-coded fallback
0.9 otherwise — also when a deterministic rule (pitch or gaze)
short-circuited the label rather than the model choosing it. -/
theorem predict_confidence_reads_probability_at_final_label
    (model : List ℚ → Nat) (proba : List ℚ → List ℚ) (features : List ℚ)
    (iris_gaze : Option (ℚ × ℚ)) :
    (predict_with_confidence model proba features iris_gaze).1 =
      predict model features iris_gaze ∧
    (predict_with_confidence model proba features iris_gaze).2.1 =
      (proba features).getD (predict model features iris_gaze) (9/10) := by
  refine ⟨rfl, ?_⟩
  by_cases h : predict model features iris_gaze < (proba features).length
  · rw [List.getD_eq_getElem?_getD, List.getElem?_eq_getElem h]
    simp [predict_with_confidence, h]
  · rw [List.getD_eq_getElem?_getD, List.getElem?_eq_none (le_of_not_lt h)]
    simp [predict_with_confidence, h]

lemma foldl_min_le (xs : List ℤ) (a : ℤ) : xs.foldl min a ≤ a := by
  induction xs generalizing a with
  | nil => simp
  | cons b xs ih => exact le_trans (ih (min a b)) (min_le_left a b)

lemma le_foldl_max (xs : List ℤ) (a : ℤ) : a ≤ xs.foldl max a := by
  induction xs generalizing a with
  | nil => simp
  | cons b xs ih => exact le_trans (le_max_left a b) (ih (max a b))

/-- Core of the bounding-box computation in
`calculate_eye_gaze_ratio`: for any collected integer point list, the
result is 1/2, whether through the short-list default or through the
center-of-box arithmetic. -/
lemma bounding_center_half (pts : List (ℤ × ℤ)) :
    (if pts.length < 6 then (1 : ℚ)/2
     else
       match pts.map Prod.fst with
       | [] => 1/2
       | x0 :: xs =>
         let xmin := xs.foldl min x0
         let xmax := xs.foldl max x0
         let x : ℚ := (xmin : ℤ)
         let w : ℚ := ((xmax - xmin + 1 : ℤ) : ℚ)
         let eye_center_x := x + w / 2
         let gaze_r := if 0 < w then (eye_center_x - x) / w else 1/2
         min 1 (max gaze_r 0)) = 1/2 := by
  split
  · rfl
  · split
    · rfl
    · rename_i x0 xs heq
      simp only []
      have hle : xs.foldl min x0 ≤ xs.foldl max x0 :=
        le_trans (foldl_min_le xs x0) (le_foldl_max xs x0)
      have hwint : (0 : ℤ) < xs.foldl max x0 - xs.foldl min x0 + 1 := by omega
      have hw : (0 : ℚ) < ((xs.foldl max x0 - xs.foldl min x0 + 1 : ℤ) : ℚ) := by
        exact_mod_cast hwint
      rw [if_pos hw]
      have hwne : ((xs.foldl max x0 - xs.foldl min x0 + 1 : ℤ) : ℚ) ≠ 0 :=
        ne_of_gt hw
      have hg : ∀ m w : ℚ, w ≠ 0 → (m + w / 2 - m) / w = 1/2 := by
        intro m w hwz
        field_simp
        ring
      rw [hg _ _ hwne]
      norm_num

lemma calculate_eye_gaze_ratio_eq_half (fw fh : ℚ)
    (lm : List (ℚ × ℚ × ℚ)) (eye : String) :
    calculate_eye_gaze_ratio fw fh lm eye = 1/2 := by
  unfold calculate_eye_gaze_ratio
  simp only []
  split <;> exact bounding_center_half _

/-- C9: `calculate_eye_gaze_ratio` returns exactly 0.5 for every
landmark list, both eyes and every frame size — it measures the
horizontal position of the bounding-box center relative to the box,
which is (x + w/2 − x)/w = 1/2 whenever w > 0, and it falls back to the
0.5 default otherwise — and consequently the fourth element
(`avg_eye_ratio`, index 3) of every feature vector produced by
`extract_all_features` is the constant 0.5, for every pose solver and
square-root function. -/
theorem eye_gaze_ratio_is_constant_half
    (pose : List (ℚ × ℚ × ℚ) → ℚ × ℚ × ℚ) (sqrtQ : ℚ → ℚ) (fw fh : ℚ)
    (lm : List (ℚ × ℚ × ℚ)) :
    (∀ eye, calculate_eye_gaze_ratio fw fh lm eye = 1/2) ∧
    (extract_all_features pose sqrtQ fw fh lm).1[3]? = some (1/2) := by
  refine ⟨fun eye => calculate_eye_gaze_ratio_eq_half fw fh lm eye, ?_⟩
  simp only [extract_all_features, calculate_eye_gaze_ratio_eq_half]
  norm_num

/-- C10: the `Config` class defines no attribute
`VIOLATION_DURATION_SECONDS` (its noise-filter constant is
`VIOLATION_FRAME_COUNT = 5`), so evaluating the default-argument
expression of the `violation_duration` parameter of `ViolationDetector.__init__`
parameter fails with `AttributeError` when the class body executes at
module import: no 2.0-second default duration exists in the code and a
`ViolationDetector` cannot be constructed from defaults. -/
theorem violation_duration_default_is_attribute_error :
    "VIOLATION_DURATION_SECONDS" ∉ Config.attributeNames ∧
    Config.numericAttr "VIOLATION_DURATION_SECONDS" = none ∧
    Config.numericAttr "VIOLATION_FRAME_COUNT" = some 5 ∧
    (∃ msg, violationDetectorDefaultDuration = Except.error msg) ∧
    ∀ v : ℚ, violationDetectorDefaultDuration ≠ Except.ok v := by
  refine ⟨by decide, by rfl, by rfl, ⟨_, rfl⟩, ?_⟩
  intro v h
  exact absurd h (by simp [violationDetectorDefaultDuration, Config.numericAttr])

end SmartExaminer
